import Mathlib

/-!
Welsh Academy API: user service and user repository.

A shallow embedding of `src/service/user_service.go` and
`src/repository/user.go`.

* Go strings are embedded as Lean `String`s (sequences of Unicode code
  points), so `len([]rune(s))` is `s.length`.
* A Go result pair `(v, error)` is a pair `v × Option Err`, `none` being `nil`.
* A method of the `UserRepository` interface takes the store state and returns
  the next one; an argument passed by pointer (`*model.User`) is returned
  next to the error.
* `bcrypt`, `jwt` signing, the clock and the environment are parameters.
-/

set_option autoImplicit false

namespace WelshAcademy

/-! ## Data model -/

/-- Errors of the `gorm` library that the repository can see. -/
inductive GormErr where
  | ErrRecordNotFound
  | ErrMissingWhereClause
  | ErrDuplicatedKey
  | driver (msg : String)
  deriving DecidableEq, Repr

/-- Modelled from the spec: the sentinel errors of package `exception`
(`ErrRecordNotFound`, `ErrDuplicateKey`, `ErrInvalidCredentials`,
`ErrInvalidPassword`, `ErrPasswordSame`), which is not part of the sources.
The last two constructors stand for the errors of the libraries that the
service passes through unchanged. -/
inductive Err where
  | ErrRecordNotFound
  | ErrDuplicateKey
  | ErrInvalidCredentials
  | ErrInvalidPassword
  | ErrPasswordSame
  | gorm (e : GormErr)
  | other (msg : String)
  deriving DecidableEq, Repr

/-- Modelled from the spec: `exception.ValidationError`, a field name with a
message; package `exception` is not part of the sources. -/
structure ValidationError where
  field : String
  message : String
  deriving DecidableEq, Repr

/-- Modelled from the spec: `exception.NewValidationError`. -/
def NewValidationError (field message : String) : ValidationError :=
  { field := field, message := message }

/-- Modelled from the spec: `model.User` (identifier, username, password hash,
administrator flag); package `model` is not part of the sources. The
identifier is a Go `int` (`user.ID = userID` with `userID int`). -/
structure User where
  ID : Int
  Username : String
  Password : String
  IsAdmin : Bool
  deriving DecidableEq, Repr

/-- The zero value of `model.User` (`var user model.User`). -/
def User.zero : User :=
  { ID := 0, Username := "", Password := "", IsAdmin := false }

/-- Modelled from the spec: `schema.CreateUserSchema` (username, plaintext
password, optional administrator flag); package `schema` is not part of the
sources. -/
structure CreateUserSchema where
  Username : String
  Password : String
  IsAdmin : Bool
  deriving DecidableEq, Repr

/-- Modelled from the spec: `schema.LoginSchema`; the second field is spelled
`Pasword` in the service. -/
structure LoginSchema where
  Username : String
  Pasword : String
  deriving DecidableEq, Repr

/-- Modelled from the spec: `schema.PasswordSchema`. -/
structure PasswordSchema where
  Password : String
  deriving DecidableEq, Repr

/-- Modelled from the spec: the constant `model.RoleUser`, the role claim
`"user"`. -/
def RoleUser : String := "user"

/-- Modelled from the spec: the constant `model.RoleAdmin`, the role claim
`"admin"`. -/
def RoleAdmin : String := "admin"

/-! ## The repository interface -/

/-- The interface `repository.UserRepository` over a store state `σ`. Every
method may read and change the store; a `*model.User` argument comes back as
the `User` component of the result. -/
structure UserRepository (σ : Type) where
  IsNotCreated : σ → User → σ × Bool × Option Err
  Create : σ → User → σ × User × Option Err
  GetByUsername : σ → User → σ × User × Option Err
  GetByID : σ → User → σ × User × Option Err
  UpdatePassword : σ → User → σ × User × Option Err

/-- The two functions of `golang.org/x/crypto/bcrypt` that the service calls.
`GenerateFromPassword salt password cost` gets the random salt of the call as
its first argument; `CompareHashAndPassword hash password` is `none` (Go
`nil`) exactly when the password matches the hash. -/
structure Bcrypt where
  GenerateFromPassword : String → String → Nat → Except Err String
  CompareHashAndPassword : String → String → Option Err

/-! ## `service.userService` -/

/-- The method `userService.ValidateUserCreation`: four independent checks,
each appending one error. -/
def ValidateUserCreation (userSchema : CreateUserSchema) : List ValidationError :=
  let errs : List ValidationError := []
  let errs :=
    if userSchema.Username = "" then
      errs ++ [NewValidationError "username" "username is required"]
    else errs
  let errs :=
    if userSchema.Username.length < 3 then
      errs ++ [NewValidationError "username" "username must be at least 3 characters long"]
    else errs
  let errs :=
    if userSchema.Password = "" then
      errs ++ [NewValidationError "password" "password is required"]
    else errs
  let errs :=
    if userSchema.Password.length < 4 then
      errs ++ [NewValidationError "password" "password must be at least 4 characters long"]
    else errs
  errs

/-- The method `userService.CreateUser`. -/
def CreateUser {σ : Type} (repo : UserRepository σ) (bc : Bcrypt) (salt : String)
    (s : σ) (userSchema : CreateUserSchema) : σ × User × Option Err :=
  let user : User :=
    { ID := 0, Username := userSchema.Username, Password := "", IsAdmin := userSchema.IsAdmin }
  match repo.IsNotCreated s user with
  | (s1, _, some checkErr) => (s1, user, some checkErr)
  | (s1, ok, none) =>
    if !ok then (s1, user, some Err.ErrDuplicateKey)
    else
      match bc.GenerateFromPassword salt userSchema.Password 10 with
      | Except.error hashErr => (s1, user, some hashErr)
      | Except.ok hash => repo.Create s1 { user with Password := hash }

/-- The method `userService.validateCredentials`. -/
def validateCredentials {σ : Type} (repo : UserRepository σ) (bc : Bcrypt)
    (s : σ) (loginSchema : LoginSchema) : σ × User × Option Err :=
  let user : User := User.zero
  if loginSchema.Username = "" ∨ loginSchema.Pasword = "" then
    (s, user, some Err.ErrInvalidCredentials)
  else if loginSchema.Username.length < 3 ∨ loginSchema.Pasword.length < 4 then
    (s, user, some Err.ErrInvalidCredentials)
  else
    match repo.GetByUsername s { user with Username := loginSchema.Username } with
    | (s1, user, some err) => (s1, user, some err)
    | (s1, user, none) =>
      if user.ID = 0 then (s1, user, some Err.ErrInvalidCredentials)
      else
        match bc.CompareHashAndPassword user.Password loginSchema.Pasword with
        | some _ => (s1, user, some Err.ErrInvalidCredentials)
        | none => (s1, user, none)

/-- A value of a `jwt.MapClaims` entry: a string or a number. -/
inductive ClaimValue where
  | str (s : String)
  | num (n : Int)
  deriving DecidableEq, Repr

/-- The map `jwt.MapClaims`, as the list of its entries in the order of the
map literal. -/
abbrev MapClaims := List (String × ClaimValue)

/-- A `time.Time`, as the number of nanoseconds since the Unix epoch. -/
structure Time where
  unixNano : Int
  deriving DecidableEq, Repr

/-- The constant `time.Hour`, a `time.Duration` in nanoseconds. -/
def Hour : Int := 3600 * 1000000000

/-- The method `Time.Add`: the time `d` nanoseconds later. -/
def Time.Add (t : Time) (d : Int) : Time := { unixNano := t.unixNano + d }

/-- The method `Time.Unix`: the whole seconds since the epoch, rounded down. -/
def Time.Unix (t : Time) : Int := t.unixNano / 1000000000

/-- The function `strconv.Itoa`: the decimal string of an integer. -/
def Itoa (i : Int) : String := toString i

/-- The method `userService.CreateAccessToken`. The parameter `SignedString claims key`
stands for `jwt.NewWithClaims(jwt.SigningMethodHS256, claims).SignedString(key)`,
`secret` for `os.Getenv("JWT_SECRET")` and `now` for `time.Now()`. -/
def CreateAccessToken {σ : Type} (repo : UserRepository σ) (bc : Bcrypt)
    (SignedString : MapClaims → String → Except Err String) (secret : String) (now : Time)
    (s : σ) (loginSchema : LoginSchema) : σ × String × Option Err :=
  match validateCredentials repo bc s loginSchema with
  | (s1, _, some err) => (s1, "", some err)
  | (s1, user, none) =>
    let role := if user.IsAdmin then RoleAdmin else RoleUser
    let claims : MapClaims :=
      [ ("ID", ClaimValue.str (Itoa user.ID)),
        ("role", ClaimValue.str role),
        ("exp", ClaimValue.num ((now.Add (Hour * 24)).Unix)) ]
    match SignedString claims secret with
    | Except.error err => (s1, "", some err)
    | Except.ok encodedToken => (s1, encodedToken, none)

/-- The method `userService.UpdatePaswword`. -/
def UpdatePaswword {σ : Type} (repo : UserRepository σ) (bc : Bcrypt) (salt : String)
    (s : σ) (userID : Int) (newPwdSchema : PasswordSchema) : σ × Option Err :=
  if newPwdSchema.Password = "" ∨ newPwdSchema.Password.length < 4 then
    (s, some Err.ErrInvalidPassword)
  else
    match repo.GetByID s { User.zero with ID := userID } with
    | (s1, _, some err) => (s1, some err)
    | (s1, user, none) =>
      if user.ID = 0 then (s1, some Err.ErrRecordNotFound)
      else
        match bc.CompareHashAndPassword user.Password newPwdSchema.Password with
        | none => (s1, some Err.ErrPasswordSame)
        | some _ =>
          match bc.GenerateFromPassword salt newPwdSchema.Password 10 with
          | Except.error hashErr => (s1, some hashErr)
          | Except.ok hash =>
            match repo.UpdatePassword s1 { user with Password := hash } with
            | (s2, _, err) => (s2, err)

/-- The method `userService.GetInfos`. -/
def GetInfos {σ : Type} (repo : UserRepository σ) (s : σ) (userID : Int) :
    σ × User × Option Err :=
  repo.GetByID s { User.zero with ID := userID }

/-- How a call of `CreateDefaultAdmin` ends: it returns an error value, or the
process is stopped by `log.Fatalln` (with the error whose text is printed), or
it stops on the nil dereference `err.Error()`. -/
inductive Outcome where
  | returned (err : Option Err)
  | fatal (printed : Err)
  | nilDereference
  deriving DecidableEq, Repr

/-- The method `userService.CreateDefaultAdmin`. The test
`err != nil && !errors.Is(err, exception.ErrRecordNotFound)` is an equality
test on the sentinel. In the branch of a failed hash the source prints `err`,
the error of the lookup, which is `nil` or `ErrRecordNotFound` there. -/
def CreateDefaultAdmin {σ : Type} (repo : UserRepository σ) (bc : Bcrypt) (salt : String)
    (s : σ) : σ × Outcome :=
  let admin : User := { User.zero with Username := "admin", IsAdmin := true }
  match repo.GetByUsername s admin with
  | (s1, admin, err) =>
    match (if err = some Err.ErrRecordNotFound then none else err) with
    | some unexpected => (s1, Outcome.fatal unexpected)
    | none =>
      if admin.ID ≠ 0 then (s1, Outcome.returned none)
      else
        let password := "admin"
        match bc.GenerateFromPassword salt password 10 with
        | Except.error _ =>
          match err with
          | some e => (s1, Outcome.fatal e)
          | none => (s1, Outcome.nilDereference)
        | Except.ok hash =>
          match repo.Create s1 { admin with Password := hash } with
          | (s2, _, some e) => (s2, Outcome.fatal e)
          | (s2, _, none) => (s2, Outcome.returned none)

/-! ## `repository.userRepo` over a table of users -/

/-- The `users` table behind `*gorm.DB`: its rows, the next value of the
auto-increment primary key, and whether the (absent) declaration of
`model.User` puts a unique index on the username. -/
structure DB where
  rows : List User
  nextID : Int
  uniqueUsername : Bool
  deriving DecidableEq, Repr

/-- The row with the least primary key among `rows` (the row that
`ORDER BY id LIMIT 1` selects). -/
def leastID : List User → Option User
  | [] => none
  | u :: us =>
    match leastID us with
    | none => some u
    | some v => if u.ID ≤ v.ID then some u else some v

/-- Model of `db.Where(cond).Find(&dest)`: the number of rows selected
(`RowsAffected`) and the error, which a table in memory never raises. -/
def DB.Find (db : DB) (cond : User → Bool) : Nat × Option GormErr :=
  ((db.rows.filter cond).length, none)

/-- Model of `db.Where(cond).First(dest)`: the selected row with the least
primary key is copied into `dest`; a non-zero primary key of `dest` is a
further condition; without a row the result is `gorm.ErrRecordNotFound` and
`dest` is left as it was. -/
def DB.First (db : DB) (cond : User → Bool) (dest : User) : User × Option GormErr :=
  match leastID (db.rows.filter (fun r => cond r && (dest.ID == 0 || r.ID == dest.ID))) with
  | some r => (r, none)
  | none => (dest, some GormErr.ErrRecordNotFound)

/-- Model of `db.Create(user)`: a zero primary key is replaced by the next
auto-increment value; the insert is refused when the primary key, or the
username under a unique index, is already in the table. -/
def DB.Create (db : DB) (user : User) : DB × User × Option GormErr :=
  let id := if user.ID = 0 then db.nextID else user.ID
  if db.rows.any (fun r => r.ID == id) then (db, user, some GormErr.ErrDuplicatedKey)
  else if db.uniqueUsername && db.rows.any (fun r => r.Username == user.Username) then
    (db, user, some GormErr.ErrDuplicatedKey)
  else
    let row := { user with ID := id }
    ({ db with rows := db.rows ++ [row], nextID := max db.nextID (id + 1) }, row, none)

/-- Model of `db.Model(user).Update("password", value)`: the password column of
the rows with the primary key of `user` is set; without a primary key the
update has no condition and gorm refuses it. -/
def DB.Update (db : DB) (user : User) (value : String) : DB × User × Option GormErr :=
  if user.ID = 0 then (db, user, some GormErr.ErrMissingWhereClause)
  else
    let rows := db.rows.map (fun r => if r.ID = user.ID then { r with Password := value } else r)
    ({ db with rows := rows }, { user with Password := value }, none)

/-- The translation `if err == gorm.ErrRecordNotFound { return
exception.ErrRecordNotFound }; return err` shared by the lookups. -/
def translate : Option GormErr → Option Err
  | none => none
  | some GormErr.ErrRecordNotFound => some Err.ErrRecordNotFound
  | some e => some (Err.gorm e)

/-- The method `userRepo.Create`. -/
def userRepo.Create (db : DB) (user : User) : DB × User × Option Err :=
  match db.Create user with
  | (db1, user, err) => (db1, user, err.map Err.gorm)

/-- The method `userRepo.IsNotCreated`. -/
def userRepo.IsNotCreated (db : DB) (user : User) : DB × Bool × Option Err :=
  match db.Find (fun r => r.Username == user.Username) with
  | (_, some e) => (db, false, some (Err.gorm e))
  | (rowsAffected, none) => (db, rowsAffected == 0, none)

/-- The method `userRepo.GetByUsername`. -/
def userRepo.GetByUsername (db : DB) (user : User) : DB × User × Option Err :=
  match db.First (fun r => r.Username == user.Username) user with
  | (user, err) => (db, user, translate err)

/-- The method `userRepo.GetByID`. -/
def userRepo.GetByID (db : DB) (user : User) : DB × User × Option Err :=
  match db.First (fun r => r.ID == user.ID) user with
  | (user, err) => (db, user, translate err)

/-- The method `userRepo.UpdatePassword`. -/
def userRepo.UpdatePassword (db : DB) (user : User) : DB × User × Option Err :=
  match db.Update user user.Password with
  | (db1, user, err) => (db1, user, translate err)

/-- The constructor `repository.NewUserRepository`: the implementation of the
interface by `userRepo`. -/
def NewUserRepository : UserRepository DB :=
  { IsNotCreated := userRepo.IsNotCreated
    Create := userRepo.Create
    GetByUsername := userRepo.GetByUsername
    GetByID := userRepo.GetByID
    UpdatePassword := userRepo.UpdatePassword }

/-! ## Recording the calls made to a repository -/

/-- One call of a method of the repository, with its argument. -/
inductive Call where
  | IsNotCreated (user : User)
  | Create (user : User)
  | GetByUsername (user : User)
  | GetByID (user : User)
  | UpdatePassword (user : User)
  deriving DecidableEq, Repr

/-- The repository `repo` with a log: every call is appended to the list kept
next to the store, then passed on to `repo`. -/
def recording {σ : Type} (repo : UserRepository σ) : UserRepository (σ × List Call) :=
  { IsNotCreated := fun (s, log) user =>
      match repo.IsNotCreated s user with
      | (s1, r) => ((s1, log ++ [Call.IsNotCreated user]), r)
    Create := fun (s, log) user =>
      match repo.Create s user with
      | (s1, r) => ((s1, log ++ [Call.Create user]), r)
    GetByUsername := fun (s, log) user =>
      match repo.GetByUsername s user with
      | (s1, r) => ((s1, log ++ [Call.GetByUsername user]), r)
    GetByID := fun (s, log) user =>
      match repo.GetByID s user with
      | (s1, r) => ((s1, log ++ [Call.GetByID user]), r)
    UpdatePassword := fun (s, log) user =>
      match repo.UpdatePassword s user with
      | (s1, r) => ((s1, log ++ [Call.UpdatePassword user]), r) }

/-- A table is well formed when its primary keys are positive, below the next
auto-increment value and pairwise different, and no username occurs twice. -/
def DB.WF (db : DB) : Prop :=
  (∀ r ∈ db.rows, 0 < r.ID ∧ r.ID < db.nextID) ∧ 0 < db.nextID ∧
  (db.rows.map (fun r => r.ID)).Nodup ∧ (db.rows.map (fun r => r.Username)).Nodup

/-- A stand-in for bcrypt on which the service can be evaluated: the hash is
the salt followed by `$` and the password, and a password matches a hash that
ends in `$` and the password. -/
def toyBcrypt : Bcrypt :=
  { GenerateFromPassword := fun salt password _ => Except.ok (salt ++ "$" ++ password)
    CompareHashAndPassword := fun hash password =>
      if hash.data.drop (hash.length - (password.length + 1)) = '$' :: password.data then none
      else some (Err.other "hashedPassword is not the hash of the given password") }

/-- The table after `user` has been inserted under the next primary key. -/
def DB.inserted (db : DB) (user : User) : DB :=
  { db with rows := db.rows ++ [{ user with ID := db.nextID }], nextID := db.nextID + 1 }

/-- The table after the password of the row with primary key `id` has been set
to `value`. -/
def DB.withPassword (db : DB) (id : Int) (value : String) : DB :=
  { db with rows := db.rows.map (fun r => if r.ID = id then { r with Password := value } else r) }

/-! ## Concrete inputs -/

/-- An empty table whose first primary key will be 1. -/
def emptyDB : DB := { rows := [], nextID := 1, uniqueUsername := false }

/-- The table after `CreateUser` of `alice` with the password `secret`. -/
def aliceDB : DB :=
  (CreateUser NewUserRepository toyBcrypt "s1" emptyDB
    { Username := "alice", Password := "secret", IsAdmin := false }).1

/-- The table after `CreateUser` of the two-letter username `ab`. -/
def shortNameDB : DB :=
  (CreateUser NewUserRepository toyBcrypt "s1" emptyDB
    { Username := "ab", Password := "secret", IsAdmin := false }).1

/-- The table after `CreateUser` of `alice` with the three-letter password
`abc`. -/
def shortPasswordDB : DB :=
  (CreateUser NewUserRepository toyBcrypt "s1" emptyDB
    { Username := "alice", Password := "abc", IsAdmin := false }).1

/-- A signer that returns the key, used to evaluate `CreateAccessToken`. -/
def keySigner : MapClaims → String → Except Err String :=
  fun _ key => Except.ok key

/-- A signer that returns the claims in plain text, used to show what
`CreateAccessToken` hands to the signer. -/
def plainSigner : MapClaims → String → Except Err String :=
  fun claims _ =>
    Except.ok (String.intercalate ";" (claims.map (fun c =>
      c.1 ++ "=" ++ (match c.2 with
        | ClaimValue.str v => v
        | ClaimValue.num n => toString n))))

/-- A repository over a store without content whose `Create` overwrites the
password of the account it is handed with `secret`; the check always answers
"not created" and the other methods leave the account as it is. -/
def rewritingRepo : UserRepository Unit :=
  { IsNotCreated := fun s _ => (s, true, none)
    Create := fun s user => (s, { user with Password := "secret" }, none)
    GetByUsername := fun s user => (s, user, none)
    GetByID := fun s user => (s, user, none)
    UpdatePassword := fun s user => (s, user, none) }

/-! ## Lemmas -/

/-- A string is the empty string exactly when it has no code point. -/
theorem str_empty_iff (s : String) : s = "" ↔ s.length = 0 := by
  constructor
  · rintro rfl; rfl
  · intro h
    have : s.data = [] := List.length_eq_zero.mp h
    exact String.ext this

/-- A login input with a username of at least 3 code points and a password of at
least 4 passes both tests of `validateCredentials`. -/
theorem login_gate_passes (loginSchema : LoginSchema)
    (hu : 3 ≤ loginSchema.Username.length) (hp : 4 ≤ loginSchema.Pasword.length) :
    ¬ (loginSchema.Username = "" ∨ loginSchema.Pasword = "") ∧
    ¬ (loginSchema.Username.length < 3 ∨ loginSchema.Pasword.length < 4) := by
  simp only [str_empty_iff]
  omega

/-- A login input with an empty or short field fails one of the two tests of
`validateCredentials`. -/
theorem login_gate_fails (loginSchema : LoginSchema)
    (h : loginSchema.Username = "" ∨ loginSchema.Username.length < 3 ∨
      loginSchema.Pasword = "" ∨ loginSchema.Pasword.length < 4) :
    (loginSchema.Username = "" ∨ loginSchema.Pasword = "") ∨
    (loginSchema.Username.length < 3 ∨ loginSchema.Pasword.length < 4) := by
  tauto

/-- Adding 24 hours moves the Unix time by 86400 seconds. -/
theorem unix_add_day (now : Time) : (now.Add (Hour * 24)).Unix = now.Unix + 86400 := by
  simp only [Time.Add, Time.Unix, Hour]
  have : (3600 * 1000000000 * 24 : Int) = 86400 * 1000000000 := by norm_num
  rw [this, Int.add_mul_ediv_right _ _ (by norm_num)]

/-- In a list without repeated keys, the rows with the key of a member are that
member alone. -/
theorem filter_key_eq_singleton {κ : Type} [DecidableEq κ] (f : User → κ) :
    ∀ (l : List User) (a : User), (l.map f).Nodup → a ∈ l →
      l.filter (fun r => f r == f a) = [a]
  | [], _, _, h => by simp at h
  | x :: xs, a, hnd, h => by
    rw [List.map_cons, List.nodup_cons] at hnd
    rcases List.mem_cons.mp h with rfl | hmem
    · have hx : xs.filter (fun r => f r == f a) = [] := by
        rw [List.filter_eq_nil_iff]
        intro r hr hEq
        have : f r = f a := by simpa using hEq
        exact hnd.1 (this ▸ List.mem_map_of_mem f hr)
      simp [List.filter_cons, hx]
    · have hne : f x ≠ f a := fun hEq => hnd.1 (hEq ▸ List.mem_map_of_mem f hmem)
      have ih := filter_key_eq_singleton f xs a hnd.2 hmem
      simp [List.filter_cons, hne, ih]

/-- No row is selected by a key that no row has. -/
theorem filter_key_eq_nil {κ : Type} [DecidableEq κ] (f : User → κ) (l : List User) (k : κ)
    (h : ∀ r ∈ l, f r ≠ k) : l.filter (fun r => f r == k) = [] := by
  rw [List.filter_eq_nil_iff]
  intro r hr hEq
  exact h r hr (by simpa using hEq)

/-- The least row of a one-row selection is that row. -/
theorem leastID_singleton (a : User) : leastID [a] = some a := rfl

/-- The lookup by username finds the account of a well-formed table that has the
username. -/
theorem GetByUsername_mem (db : DB) (a dest : User) (hwf : db.WF) (ha : a ∈ db.rows)
    (hdest : dest.ID = 0) (hname : dest.Username = a.Username) :
    userRepo.GetByUsername db dest = (db, a, none) := by
  have hf := filter_key_eq_singleton (fun r => r.Username) db.rows a hwf.2.2.2 ha
  simp only [userRepo.GetByUsername, DB.First, hdest, hname]
  simp only [beq_self_eq_true, Bool.true_or, Bool.and_true]
  rw [hf]
  rfl

/-- The lookup by username of a name that is not in the table ends in
`ErrRecordNotFound` and leaves the user as it was. -/
theorem GetByUsername_absent (db : DB) (dest : User)
    (habs : ∀ r ∈ db.rows, r.Username ≠ dest.Username) (hdest : dest.ID = 0) :
    userRepo.GetByUsername db dest = (db, dest, some Err.ErrRecordNotFound) := by
  have hf := filter_key_eq_nil (fun r => r.Username) db.rows dest.Username habs
  simp only [userRepo.GetByUsername, DB.First, hdest]
  simp only [beq_self_eq_true, Bool.true_or, Bool.and_true]
  rw [hf]
  rfl

/-- The lookup by identifier finds the account of a well-formed table that has the
identifier. -/
theorem GetByID_mem (db : DB) (a dest : User) (hwf : db.WF) (ha : a ∈ db.rows)
    (hdest : dest.ID = a.ID) :
    userRepo.GetByID db dest = (db, a, none) := by
  have hf := filter_key_eq_singleton (fun r => r.ID) db.rows a hwf.2.2.1 ha
  have hfun : (fun r : User => r.ID == a.ID && (a.ID == 0 || r.ID == a.ID))
      = (fun r : User => r.ID == a.ID) := by
    funext r
    by_cases h : r.ID = a.ID <;> simp [h]
  simp only [userRepo.GetByID, DB.First, hdest]
  rw [hfun, hf]
  rfl

/-- The check `IsNotCreated` answers true for a username that is not in the table. -/
theorem IsNotCreated_absent (db : DB) (user : User)
    (habs : ∀ r ∈ db.rows, r.Username ≠ user.Username) :
    userRepo.IsNotCreated db user = (db, true, none) := by
  have hf := filter_key_eq_nil (fun r => r.Username) db.rows user.Username habs
  simp only [userRepo.IsNotCreated, DB.Find]
  rw [hf]
  rfl

/-- The check `IsNotCreated` answers false for a username that is in the table. -/
theorem IsNotCreated_mem (db : DB) (a user : User) (ha : a ∈ db.rows)
    (hname : user.Username = a.Username) :
    userRepo.IsNotCreated db user = (db, false, none) := by
  have hmem : a ∈ db.rows.filter (fun r => r.Username == user.Username) := by
    simp [List.mem_filter, ha, hname]
  have hpos : (db.rows.filter (fun r => r.Username == user.Username)).length ≠ 0 := by
    intro h0
    rw [List.length_eq_zero] at h0
    rw [h0] at hmem
    simp at hmem
  simp only [userRepo.IsNotCreated, DB.Find]
  simp [hpos]

/-- On a well-formed table, `Create` of a user without identifier and with a new
username inserts the user under the next primary key. -/
theorem Create_fresh (db : DB) (user : User) (hwf : db.WF) (hid : user.ID = 0)
    (habs : ∀ r ∈ db.rows, r.Username ≠ user.Username) :
    userRepo.Create db user = (db.inserted user, { user with ID := db.nextID }, none) := by
  have h1 : db.rows.any (fun r => r.ID == db.nextID) = false := by
    rw [List.any_eq_false]
    intro r hr
    have := (hwf.1 r hr).2
    simp only [beq_iff_eq]
    omega
  have h2 : db.rows.any (fun r => r.Username == user.Username) = false := by
    rw [List.any_eq_false]
    intro r hr
    simpa using habs r hr
  have h3 : max db.nextID (db.nextID + 1) = db.nextID + 1 := by
    apply max_eq_right; omega
  simp [userRepo.Create, DB.Create, hid, h1, h2, h3, DB.inserted]

/-- Inserting a user with a new username keeps the table well formed. -/
theorem inserted_WF (db : DB) (user : User) (hwf : db.WF)
    (habs : ∀ r ∈ db.rows, r.Username ≠ user.Username) : (db.inserted user).WF := by
  obtain ⟨hids, hpos, hndI, hndU⟩ := hwf
  refine ⟨?_, ?_, ?_, ?_⟩
  · intro r hr
    simp only [DB.inserted, List.mem_append, List.mem_singleton] at hr
    rcases hr with hr | rfl
    · have := hids r hr
      simp only [DB.inserted]
      omega
    · simp only [DB.inserted]
      omega
  · simp only [DB.inserted]
    omega
  · simp only [DB.inserted, List.map_append, List.map_cons, List.map_nil]
    rw [List.nodup_append]
    refine ⟨hndI, List.nodup_singleton _, ?_⟩
    intro x hx hx2
    rw [List.mem_singleton] at hx2
    obtain ⟨r, hr, rfl⟩ := List.mem_map.mp hx
    have := (hids r hr).2
    omega
  · simp only [DB.inserted, List.map_append, List.map_cons, List.map_nil]
    rw [List.nodup_append]
    refine ⟨hndU, List.nodup_singleton _, ?_⟩
    intro x hx hx2
    rw [List.mem_singleton] at hx2
    obtain ⟨r, hr, rfl⟩ := List.mem_map.mp hx
    exact habs r hr hx2

/-- With a non-zero identifier, `UpdatePassword` sets the password of the rows with
that identifier. -/
theorem UpdatePassword_mem (db : DB) (user : User) (hid : user.ID ≠ 0) :
    userRepo.UpdatePassword db user =
      (db.withPassword user.ID user.Password, user, none) := by
  simp [userRepo.UpdatePassword, DB.Update, hid, DB.withPassword, translate]

/-- Setting a password keeps the table well formed. -/
theorem withPassword_WF (db : DB) (id : Int) (value : String) (hwf : db.WF) :
    (db.withPassword id value).WF := by
  obtain ⟨hids, hpos, hndI, hndU⟩ := hwf
  have hI : (db.withPassword id value).rows.map (fun r => r.ID) = db.rows.map (fun r => r.ID) := by
    simp only [DB.withPassword, List.map_map]
    apply List.map_congr_left
    intro r _
    by_cases h : r.ID = id <;> simp [h]
  have hU : (db.withPassword id value).rows.map (fun r => r.Username)
      = db.rows.map (fun r => r.Username) := by
    simp only [DB.withPassword, List.map_map]
    apply List.map_congr_left
    intro r _
    by_cases h : r.ID = id <;> simp [h]
  refine ⟨?_, hpos, hI ▸ hndI, hU ▸ hndU⟩
  intro r hr
  simp only [DB.withPassword, List.mem_map] at hr
  obtain ⟨r0, hr0, rfl⟩ := hr
  have := hids r0 hr0
  by_cases h : r0.ID = id <;> simpa [h, DB.withPassword] using this

/-- After the password of an account has been set, the account with the new
password is in the table. -/
theorem withPassword_mem (db : DB) (a : User) (value : String) (ha : a ∈ db.rows) :
    { a with Password := value } ∈ (db.withPassword a.ID value).rows := by
  simp only [DB.withPassword, List.mem_map]
  exact ⟨a, ha, by simp⟩

/-- On a well-formed table without the username, `CreateUser` checks, hashes,
creates, and returns the account under the next primary key. -/
theorem CreateUser_fresh (bc : Bcrypt) (db : DB) (log : List Call) (salt hash : String)
    (userSchema : CreateUserSchema) (hwf : db.WF)
    (hfresh : ∀ r ∈ db.rows, r.Username ≠ userSchema.Username)
    (hgen : bc.GenerateFromPassword salt userSchema.Password 10 = Except.ok hash) :
    CreateUser (recording NewUserRepository) bc salt (db, log) userSchema =
      ((db.inserted (User.mk 0 userSchema.Username hash userSchema.IsAdmin),
        log ++ [Call.IsNotCreated (User.mk 0 userSchema.Username "" userSchema.IsAdmin),
          Call.Create (User.mk 0 userSchema.Username hash userSchema.IsAdmin)]),
        User.mk db.nextID userSchema.Username hash userSchema.IsAdmin, none) := by
  have h1 := IsNotCreated_absent db (User.mk 0 userSchema.Username "" userSchema.IsAdmin) hfresh
  have h2 := Create_fresh db (User.mk 0 userSchema.Username hash userSchema.IsAdmin) hwf rfl hfresh
  simp [CreateUser, recording, NewUserRepository, h1, h2, hgen]

/-- On a table that has the username, `CreateUser` stops after the check with
`ErrDuplicateKey`. -/
theorem CreateUser_taken (bc : Bcrypt) (db : DB) (log : List Call) (salt : String)
    (userSchema : CreateUserSchema) (a : User) (ha : a ∈ db.rows)
    (hname : userSchema.Username = a.Username) :
    CreateUser (recording NewUserRepository) bc salt (db, log) userSchema =
      ((db, log ++ [Call.IsNotCreated (User.mk 0 userSchema.Username "" userSchema.IsAdmin)]),
        User.mk 0 userSchema.Username "" userSchema.IsAdmin, some Err.ErrDuplicateKey) := by
  have h1 := IsNotCreated_mem db a (User.mk 0 userSchema.Username "" userSchema.IsAdmin) ha hname
  simp [CreateUser, recording, NewUserRepository, h1]

/-- After the insert of a new username, the rows with that username are the
inserted row alone. -/
theorem inserted_filter (db : DB) (user : User)
    (hfresh : ∀ r ∈ db.rows, r.Username ≠ user.Username) :
    (db.inserted user).rows.filter (fun r => r.Username == user.Username)
      = [{ user with ID := db.nextID }] := by
  have hf := filter_key_eq_nil (fun r => r.Username) db.rows user.Username hfresh
  simp only [DB.inserted, List.filter_append, hf, List.nil_append]
  simp [List.filter_cons]

/-- The inserted row is in the table. -/
theorem inserted_mem (db : DB) (user : User) :
    { user with ID := db.nextID } ∈ (db.inserted user).rows := by
  simp [DB.inserted]

/-- On a well-formed table without `admin`, `CreateDefaultAdmin` looks the name up
and creates the account. -/
theorem CreateDefaultAdmin_absent (bc : Bcrypt) (db : DB) (log : List Call) (salt hash : String)
    (hwf : db.WF) (habs : ∀ r ∈ db.rows, r.Username ≠ "admin")
    (hgen : bc.GenerateFromPassword salt "admin" 10 = Except.ok hash) :
    CreateDefaultAdmin (recording NewUserRepository) bc salt (db, log) =
      ((db.inserted (User.mk 0 "admin" hash true),
        log ++ [Call.GetByUsername (User.mk 0 "admin" "" true),
          Call.Create (User.mk 0 "admin" hash true)]), Outcome.returned none) := by
  have h1 := GetByUsername_absent db (User.mk 0 "admin" "" true) habs rfl
  have h2 := Create_fresh db (User.mk 0 "admin" hash true) hwf rfl habs
  simp [CreateDefaultAdmin, recording, NewUserRepository, User.zero, h1, h2, hgen]

/-- On a well-formed table with an account named `admin`, `CreateDefaultAdmin`
stops after the lookup. -/
theorem CreateDefaultAdmin_present (bc : Bcrypt) (db : DB) (log : List Call) (salt : String)
    (a : User) (hwf : db.WF) (ha : a ∈ db.rows) (hname : a.Username = "admin") :
    CreateDefaultAdmin (recording NewUserRepository) bc salt (db, log) =
      ((db, log ++ [Call.GetByUsername (User.mk 0 "admin" "" true)]), Outcome.returned none) := by
  have h1 := GetByUsername_mem db a (User.mk 0 "admin" "" true) hwf ha rfl hname.symm
  have hid : a.ID ≠ 0 := by
    have := (hwf.1 a ha).1
    omega
  simp [CreateDefaultAdmin, recording, NewUserRepository, User.zero, h1, hid]

/-- A hash made by `toyBcrypt` verifies against its password. -/
theorem toyBcrypt_verifies (salt password hash : String) (n : Nat)
    (h : toyBcrypt.GenerateFromPassword salt password n = Except.ok hash) :
    toyBcrypt.CompareHashAndPassword hash password = none := by
  simp only [toyBcrypt, Except.ok.injEq] at h
  subst h
  have hd : (salt ++ "$" ++ password).data = salt.data ++ '$' :: password.data := by
    rw [String.data_append, String.data_append]
    simp only [List.append_assoc]
    rfl
  have hl : (salt ++ "$" ++ password).length - (password.length + 1) = salt.data.length := by
    have hlen : (salt ++ "$" ++ password).length = salt.data.length + (password.data.length + 1) := by
      show (salt ++ "$" ++ password).data.length = _
      rw [hd, List.length_append, List.length_cons]
    rw [hlen]
    show salt.data.length + (password.data.length + 1) - (password.data.length + 1) = _
    omega
  have : (salt ++ "$" ++ password).data.drop
      ((salt ++ "$" ++ password).length - (password.length + 1)) = '$' :: password.data := by
    rw [hl, hd, List.drop_left]
  simp only [toyBcrypt]
  rw [if_pos this]

/-- The method `Create` of the repository leaves the password of the account it
is handed as it is. -/
theorem NewUserRepository_Create_keeps_password (db : DB) (user : User) :
    (NewUserRepository.Create db user).2.1.Password = user.Password := by
  simp only [NewUserRepository, userRepo.Create, DB.Create]
  split_ifs <;> rfl

/-- The empty table is well formed. -/
theorem emptyDB_WF : emptyDB.WF := by
  simp [DB.WF, emptyDB]

/-- The table that holds `alice` is well formed. -/
theorem aliceDB_WF : aliceDB.WF := by
  unfold DB.WF
  decide
/-! ## Validation of a creation input -/

/-- Claim C1. For every creation input, `ValidateUserCreation` returns one
error per violated check, in the order username-required, username-length,
password-required, password-length; an empty username with an empty password
gives 4 errors, a username of 2 code points with a password of 5 gives 1, and
the list is empty exactly when the username has at least 3 code points and the
password at least 4. -/
theorem ValidateUserCreation_errors (userSchema : CreateUserSchema) :
    ValidateUserCreation userSchema =
      (if userSchema.Username = "" then
        [NewValidationError "username" "username is required"] else []) ++
      (if userSchema.Username.length < 3 then
        [NewValidationError "username" "username must be at least 3 characters long"]
        else []) ++
      (if userSchema.Password = "" then
        [NewValidationError "password" "password is required"] else []) ++
      (if userSchema.Password.length < 4 then
        [NewValidationError "password" "password must be at least 4 characters long"]
        else []) ∧
    (userSchema.Username = "" → userSchema.Password = "" →
      (ValidateUserCreation userSchema).length = 4) ∧
    (userSchema.Username.length = 2 → userSchema.Password.length = 5 →
      (ValidateUserCreation userSchema).length = 1) ∧
    (ValidateUserCreation userSchema = [] ↔
      3 ≤ userSchema.Username.length ∧ 4 ≤ userSchema.Password.length) := by
  obtain ⟨u, p, b⟩ := userSchema
  simp only [ValidateUserCreation, str_empty_iff]
  refine ⟨?_, ?_, ?_, ?_⟩
  · by_cases h1 : u.length = 0 <;> by_cases h2 : u.length < 3 <;>
      by_cases h3 : p.length = 0 <;> by_cases h4 : p.length < 4 <;> simp [h1, h2, h3, h4]
  · intro h1 h3
    simp [h1, h3]
  · intro h1 h3
    simp [h1, h3]
  · by_cases h1 : u.length = 0 <;> by_cases h2 : u.length < 3 <;>
      by_cases h3 : p.length = 0 <;> by_cases h4 : p.length < 4 <;>
      simp [h1, h2, h3, h4]
    all_goals omega

/-- Claim C1 on three inputs: both fields empty, the username `ab` with the
password `12345`, and the username `abc` with the password `1234`. -/
theorem ValidateUserCreation_errors_witness :
    (ValidateUserCreation { Username := "", Password := "", IsAdmin := false }).length = 4 ∧
    (ValidateUserCreation { Username := "ab", Password := "12345", IsAdmin := true }).length = 1 ∧
    ValidateUserCreation { Username := "abc", Password := "1234", IsAdmin := false } = [] :=
  ⟨(ValidateUserCreation_errors { Username := "", Password := "", IsAdmin := false }).2.1 rfl rfl,
    (ValidateUserCreation_errors { Username := "ab", Password := "12345", IsAdmin := true }).2.2.1
      (by decide) (by decide),
    (ValidateUserCreation_errors { Username := "abc", Password := "1234", IsAdmin := false }).2.2.2.2
      ⟨by decide, by decide⟩⟩

/-! ## Login -/

/-- Claim C2, evaluated on the table that holds `alice`: a wrong password for
`alice` ends in `ErrInvalidCredentials`, the unknown username `bobby` ends in
`ErrRecordNotFound`, and the two errors are different, so a caller can tell
the two cases apart. -/
theorem validateCredentials_unknown_username_distinguishable :
    (validateCredentials NewUserRepository toyBcrypt aliceDB
        { Username := "alice", Pasword := "wrong" }).2.2 = some Err.ErrInvalidCredentials ∧
    (validateCredentials NewUserRepository toyBcrypt aliceDB
        { Username := "bobby", Pasword := "wrong" }).2.2 = some Err.ErrRecordNotFound ∧
    Err.ErrRecordNotFound ≠ Err.ErrInvalidCredentials := by
  decide

/-- Claim C3. For every login input that passes the combined validation
(username of at least 3 code points, password of at least 4), if the lookup by
username returns an error, `validateCredentials` returns the state, the user
and the error of the lookup unchanged, whatever the password comparison of
`bc` would answer; the only call made to the repository is that lookup. -/
theorem validateCredentials_propagates_lookup_error {σ : Type} (repo : UserRepository σ)
    (bc : Bcrypt) (s s1 : σ) (log : List Call) (loginSchema : LoginSchema) (user : User)
    (err : Err)
    (hu : 3 ≤ loginSchema.Username.length) (hp : 4 ≤ loginSchema.Pasword.length)
    (hlookup : repo.GetByUsername s { User.zero with Username := loginSchema.Username }
      = (s1, user, some err)) :
    validateCredentials repo bc s loginSchema = (s1, user, some err) ∧
    validateCredentials (recording repo) bc (s, log) loginSchema =
      ((s1, log ++ [Call.GetByUsername { User.zero with Username := loginSchema.Username }]),
        user, some err) := by
  obtain ⟨g1, g2⟩ := login_gate_passes loginSchema hu hp
  constructor
  · simp only [validateCredentials, if_neg g1, if_neg g2, hlookup]
  · simp only [validateCredentials, if_neg g1, if_neg g2, recording, hlookup]

/-- Claim C3 on the table that holds `alice`, for the unknown username
`bobby`: the error of the repository, `ErrRecordNotFound`, is returned. -/
theorem validateCredentials_propagates_lookup_error_witness :
    3 ≤ "bobby".length ∧ 4 ≤ "secret".length ∧
    validateCredentials NewUserRepository toyBcrypt aliceDB
        { Username := "bobby", Pasword := "secret" }
      = (aliceDB, { User.zero with Username := "bobby" }, some Err.ErrRecordNotFound) :=
  ⟨by decide, by decide,
    (validateCredentials_propagates_lookup_error NewUserRepository toyBcrypt aliceDB aliceDB []
      { Username := "bobby", Pasword := "secret" } { User.zero with Username := "bobby" }
      Err.ErrRecordNotFound (by decide) (by decide) (by decide)).1⟩

/-- Claim C4. For every login input whose username is empty or shorter than 3
code points, or whose password is empty or shorter than 4 code points,
`validateCredentials` returns `ErrInvalidCredentials` with the zero user and
the store as it was, for every repository, so no call reaches the store (the
log of a recording repository is unchanged); `CreateAccessToken` returns the
empty token with the same error. -/
theorem validateCredentials_rejects_invalid_input {σ : Type} (repo : UserRepository σ)
    (bc : Bcrypt) (SignedString : MapClaims → String → Except Err String) (secret : String)
    (now : Time) (s : σ) (log : List Call) (loginSchema : LoginSchema)
    (h : loginSchema.Username = "" ∨ loginSchema.Username.length < 3 ∨
      loginSchema.Pasword = "" ∨ loginSchema.Pasword.length < 4) :
    validateCredentials repo bc s loginSchema = (s, User.zero, some Err.ErrInvalidCredentials) ∧
    CreateAccessToken repo bc SignedString secret now s loginSchema
      = (s, "", some Err.ErrInvalidCredentials) ∧
    validateCredentials (recording repo) bc (s, log) loginSchema
      = ((s, log), User.zero, some Err.ErrInvalidCredentials) ∧
    CreateAccessToken (recording repo) bc SignedString secret now (s, log) loginSchema
      = ((s, log), "", some Err.ErrInvalidCredentials) := by
  have hv : ∀ {τ : Type} (r : UserRepository τ) (t : τ),
      validateCredentials r bc t loginSchema = (t, User.zero, some Err.ErrInvalidCredentials) := by
    intro τ r t
    unfold validateCredentials
    rcases login_gate_fails loginSchema h with g | g
    · simp only [if_pos g]
    · by_cases g1 : loginSchema.Username = "" ∨ loginSchema.Pasword = ""
      · simp only [if_pos g1]
      · simp only [if_neg g1, if_pos g]
  exact ⟨hv repo s, by simp only [CreateAccessToken, hv], hv (recording repo) (s, log),
    by simp only [CreateAccessToken, hv]⟩

/-- Claim C4 on the table that holds `alice`, for the username `al` of two
code points with the right password. -/
theorem validateCredentials_rejects_invalid_input_witness :
    "al".length < 3 ∧
    validateCredentials NewUserRepository toyBcrypt aliceDB
        { Username := "al", Pasword := "secret" }
      = (aliceDB, User.zero, some Err.ErrInvalidCredentials) ∧
    CreateAccessToken NewUserRepository toyBcrypt keySigner "key" { unixNano := 0 } aliceDB
        { Username := "al", Pasword := "secret" }
      = (aliceDB, "", some Err.ErrInvalidCredentials) :=
  have h := validateCredentials_rejects_invalid_input NewUserRepository toyBcrypt keySigner "key"
    { unixNano := 0 } aliceDB [] { Username := "al", Pasword := "secret" }
    (Or.inr (Or.inl (by decide)))
  ⟨by decide, h.1, h.2.1⟩

/-- Claim C8. For every login input that authenticates to an account `a` at
time `now`, `CreateAccessToken` passes to the signer exactly the three claims
`ID` (the decimal string of the identifier of `a`), `role` (`RoleAdmin` when
`a.IsAdmin`, else `RoleUser`) and `exp` (the Unix time of `now` plus 86400),
and returns what the signer returns; the two roles are different. -/
theorem CreateAccessToken_claims {σ : Type} (repo : UserRepository σ) (bc : Bcrypt)
    (SignedString : MapClaims → String → Except Err String) (secret : String) (now : Time)
    (s s1 : σ) (loginSchema : LoginSchema) (a : User)
    (hauth : validateCredentials repo bc s loginSchema = (s1, a, none)) :
    CreateAccessToken repo bc SignedString secret now s loginSchema =
      (match SignedString
          [ ("ID", ClaimValue.str (Itoa a.ID)),
            ("role", ClaimValue.str (if a.IsAdmin then RoleAdmin else RoleUser)),
            ("exp", ClaimValue.num (now.Unix + 86400)) ] secret with
        | Except.error err => (s1, "", some err)
        | Except.ok encodedToken => (s1, encodedToken, none)) ∧
    RoleAdmin ≠ RoleUser := by
  refine ⟨?_, by decide⟩
  simp only [CreateAccessToken, hauth, unix_add_day]

/-- Claim C8 on the table that holds `alice`, at a time 123456789 nanoseconds
after the Unix second 1700000000: the signer receives the identifier `1`, the
role `user` and the expiry 1700086400. -/
theorem CreateAccessToken_claims_witness :
    validateCredentials NewUserRepository toyBcrypt aliceDB
        { Username := "alice", Pasword := "secret" }
      = (aliceDB, User.mk 1 "alice" "s1$secret" false, none) ∧
    CreateAccessToken NewUserRepository toyBcrypt plainSigner "key"
        { unixNano := 1700000000123456789 } aliceDB { Username := "alice", Pasword := "secret" }
      = (aliceDB, "ID=1;role=user;exp=1700086400", none) :=
  ⟨by decide,
    (CreateAccessToken_claims NewUserRepository toyBcrypt plainSigner "key"
      { unixNano := 1700000000123456789 } aliceDB aliceDB
      { Username := "alice", Pasword := "secret" } (User.mk 1 "alice" "s1$secret" false)
      (by decide)).1.trans (by decide)⟩

/-! ## Creation of accounts -/

/-- Claim C5. Over the repository on a well-formed table that has no account
with the username, and with a hasher that succeeds on the first call: the
first `CreateUser` returns the new account without error; the second
`CreateUser` with the same username, run on the state the first one left,
returns `ErrDuplicateKey`, leaves the table as it was and adds only an
`IsNotCreated` call to the log (the only `Create` call is the one of the first
run); the table then has exactly one row with that username. -/
theorem CreateUser_twice_same_username (bc : Bcrypt) (db : DB) (salt1 salt2 hash : String)
    (first second : CreateUserSchema) (hwf : db.WF)
    (hfresh : ∀ r ∈ db.rows, r.Username ≠ first.Username)
    (hsame : second.Username = first.Username)
    (hgen : bc.GenerateFromPassword salt1 first.Password 10 = Except.ok hash) :
    CreateUser (recording NewUserRepository) bc salt1 (db, []) first =
      ((db.inserted (User.mk 0 first.Username hash first.IsAdmin),
        [Call.IsNotCreated (User.mk 0 first.Username "" first.IsAdmin),
          Call.Create (User.mk 0 first.Username hash first.IsAdmin)]),
        User.mk db.nextID first.Username hash first.IsAdmin, none) ∧
    CreateUser (recording NewUserRepository) bc salt2
        (CreateUser (recording NewUserRepository) bc salt1 (db, []) first).1 second =
      ((db.inserted (User.mk 0 first.Username hash first.IsAdmin),
        [Call.IsNotCreated (User.mk 0 first.Username "" first.IsAdmin),
          Call.Create (User.mk 0 first.Username hash first.IsAdmin),
          Call.IsNotCreated (User.mk 0 first.Username "" second.IsAdmin)]),
        User.mk 0 first.Username "" second.IsAdmin, some Err.ErrDuplicateKey) ∧
    (db.inserted (User.mk 0 first.Username hash first.IsAdmin)).rows.filter
        (fun r => r.Username == first.Username) =
      [User.mk db.nextID first.Username hash first.IsAdmin] := by
  have h1 := CreateUser_fresh bc db [] salt1 hash first hwf hfresh hgen
  simp only [List.nil_append] at h1
  have hmem := inserted_mem db (User.mk 0 first.Username hash first.IsAdmin)
  have h2 := CreateUser_taken bc (db.inserted (User.mk 0 first.Username hash first.IsAdmin))
    [Call.IsNotCreated (User.mk 0 first.Username "" first.IsAdmin),
      Call.Create (User.mk 0 first.Username hash first.IsAdmin)] salt2 second _ hmem hsame
  refine ⟨h1, ?_,
    inserted_filter db (User.mk 0 first.Username hash first.IsAdmin) hfresh⟩
  rw [h1]
  simp only []
  rw [h2, hsame]
  rfl

/-- Claim C5 on the empty table: `alice` is created once, the second creation
is refused, and one row named `alice` is in the table. -/
theorem CreateUser_twice_same_username_witness :
    emptyDB.WF ∧
    (CreateUser (recording NewUserRepository) toyBcrypt "s2"
        (CreateUser (recording NewUserRepository) toyBcrypt "s1" (emptyDB, [])
          { Username := "alice", Password := "secret", IsAdmin := false }).1
        { Username := "alice", Password := "other", IsAdmin := true }).2.2
      = some Err.ErrDuplicateKey ∧
    (emptyDB.inserted (User.mk 0 "alice" "s1$secret" false)).rows.filter
        (fun r => r.Username == "alice") = [User.mk 1 "alice" "s1$secret" false] :=
  have h := CreateUser_twice_same_username toyBcrypt emptyDB "s1" "s2" "s1$secret"
    { Username := "alice", Password := "secret", IsAdmin := false }
    { Username := "alice", Password := "other", IsAdmin := true }
    emptyDB_WF (by decide) rfl rfl
  ⟨emptyDB_WF, by rw [h.2.1], h.2.2⟩

/-- Claim C9. Over the repository on a well-formed table that has no account
named `admin`, and with a hasher that succeeds on the first call: the first
`CreateDefaultAdmin` looks the name up, creates the account with the
administrator flag and returns `nil`; the second one, run on the state the
first one left, only looks the name up, leaves the table as it was and returns
`nil`; the table then has exactly one row named `admin`, with the
administrator flag set. -/
theorem CreateDefaultAdmin_twice (bc : Bcrypt) (db : DB) (salt1 salt2 hash : String)
    (hwf : db.WF) (habs : ∀ r ∈ db.rows, r.Username ≠ "admin")
    (hgen : bc.GenerateFromPassword salt1 "admin" 10 = Except.ok hash) :
    CreateDefaultAdmin (recording NewUserRepository) bc salt1 (db, []) =
      ((db.inserted (User.mk 0 "admin" hash true),
        [Call.GetByUsername (User.mk 0 "admin" "" true),
          Call.Create (User.mk 0 "admin" hash true)]), Outcome.returned none) ∧
    CreateDefaultAdmin (recording NewUserRepository) bc salt2
        (CreateDefaultAdmin (recording NewUserRepository) bc salt1 (db, [])).1 =
      ((db.inserted (User.mk 0 "admin" hash true),
        [Call.GetByUsername (User.mk 0 "admin" "" true),
          Call.Create (User.mk 0 "admin" hash true),
          Call.GetByUsername (User.mk 0 "admin" "" true)]), Outcome.returned none) ∧
    (db.inserted (User.mk 0 "admin" hash true)).rows.filter (fun r => r.Username == "admin") =
      [User.mk db.nextID "admin" hash true] := by
  have h1 := CreateDefaultAdmin_absent bc db [] salt1 hash hwf habs hgen
  simp only [List.nil_append] at h1
  have hmem := inserted_mem db (User.mk 0 "admin" hash true)
  have h2 := CreateDefaultAdmin_present bc (db.inserted (User.mk 0 "admin" hash true))
    [Call.GetByUsername (User.mk 0 "admin" "" true), Call.Create (User.mk 0 "admin" hash true)]
    salt2 _ (inserted_WF db _ hwf habs) hmem rfl
  refine ⟨h1, ?_, inserted_filter db (User.mk 0 "admin" hash true) habs⟩
  rw [h1]
  simp only []
  rw [h2]
  rfl

/-- Claim C9 on the empty table. -/
theorem CreateDefaultAdmin_twice_witness :
    emptyDB.WF ∧
    CreateDefaultAdmin (recording NewUserRepository) toyBcrypt "s2"
        (CreateDefaultAdmin (recording NewUserRepository) toyBcrypt "s1" (emptyDB, [])).1
      = (({ rows := [User.mk 1 "admin" "s1$admin" true], nextID := 2, uniqueUsername := false },
          [Call.GetByUsername (User.mk 0 "admin" "" true),
            Call.Create (User.mk 0 "admin" "s1$admin" true),
            Call.GetByUsername (User.mk 0 "admin" "" true)]), Outcome.returned none) :=
  ⟨emptyDB_WF,
    (CreateDefaultAdmin_twice toyBcrypt emptyDB "s1" "s2" "s1$admin" emptyDB_WF
      (by decide) rfl).2.1⟩

/-- Claim C10 fails for a repository whose `Create` rewrites the account it is
handed: with `rewritingRepo` the account handed to `Create` carries the hash
`s1$secret`, but the account that `CreateUser` returns without error carries
`secret`, the plaintext password of the input, and not the output of the
hasher. -/
theorem CreateUser_returns_what_Create_leaves :
    (CreateUser (recording rewritingRepo) toyBcrypt "s1" ((), [])
        { Username := "alice", Password := "secret", IsAdmin := false }).1.2
      = [Call.IsNotCreated (User.mk 0 "alice" "" false),
          Call.Create (User.mk 0 "alice" "s1$secret" false)] ∧
    toyBcrypt.GenerateFromPassword "s1" "secret" 10 = Except.ok "s1$secret" ∧
    CreateUser rewritingRepo toyBcrypt "s1" ()
        { Username := "alice", Password := "secret", IsAdmin := false }
      = ((), User.mk 0 "alice" "secret" false, none) ∧
    (CreateUser rewritingRepo toyBcrypt "s1" ()
        { Username := "alice", Password := "secret", IsAdmin := false }).2.1.Password
      ≠ "s1$secret" :=
  ⟨by decide, rfl, by decide, by decide⟩

/-- Claim C10, amended. For every creation input, every repository and every
hasher whose hashes verify against the password they were made from: every
account that `CreateUser` hands to `Create` carries in `Password` the output
of the hasher for the input password, which verifies against that password;
`Create` is reached exactly when the check answers "not created" without error
and the hasher succeeds; on the other paths (check error, duplicate key, hash
error) the returned account has the empty `Password` and an error is returned;
when `Create` is reached, `CreateUser` returns exactly what `Create` returns
for the account with the hash, so the returned `Password` is that hash when
this call of `Create` leaves the field as it is; and `Create` of the
repository of this program leaves the field as it is. -/
theorem CreateUser_password_is_hash {σ : Type} (repo : UserRepository σ) (bc : Bcrypt)
    (salt : String) (s : σ) (userSchema : CreateUserSchema)
    (hbc : ∀ (salt0 password hash : String),
      bc.GenerateFromPassword salt0 password 10 = Except.ok hash →
      bc.CompareHashAndPassword hash password = none) :
    CreateUser repo bc salt s userSchema =
      ((CreateUser (recording repo) bc salt (s, []) userSchema).1.1,
        (CreateUser (recording repo) bc salt (s, []) userSchema).2) ∧
    (∀ u, Call.Create u ∈ (CreateUser (recording repo) bc salt (s, []) userSchema).1.2 →
      bc.GenerateFromPassword salt userSchema.Password 10 = Except.ok u.Password ∧
      bc.CompareHashAndPassword u.Password userSchema.Password = none) ∧
    ((∃ u, Call.Create u ∈ (CreateUser (recording repo) bc salt (s, []) userSchema).1.2) ↔
      ∃ s1 hash,
        repo.IsNotCreated s (User.mk 0 userSchema.Username "" userSchema.IsAdmin) = (s1, true, none) ∧
        bc.GenerateFromPassword salt userSchema.Password 10 = Except.ok hash) ∧
    ((∀ u, Call.Create u ∉ (CreateUser (recording repo) bc salt (s, []) userSchema).1.2) →
      (CreateUser repo bc salt s userSchema).2.1.Password = "" ∧
      (CreateUser repo bc salt s userSchema).2.2 ≠ none) ∧
    (∀ (s1 : σ) (hash : String),
      repo.IsNotCreated s (User.mk 0 userSchema.Username "" userSchema.IsAdmin) = (s1, true, none) →
      bc.GenerateFromPassword salt userSchema.Password 10 = Except.ok hash →
      CreateUser repo bc salt s userSchema
        = repo.Create s1 (User.mk 0 userSchema.Username hash userSchema.IsAdmin) ∧
      bc.CompareHashAndPassword hash userSchema.Password = none ∧
      ((repo.Create s1 (User.mk 0 userSchema.Username hash userSchema.IsAdmin)).2.1.Password = hash →
        (CreateUser repo bc salt s userSchema).2.1.Password = hash)) ∧
    (∀ (db : DB) (user : User),
      (NewUserRepository.Create db user).2.1.Password = user.Password) := by
  have hreach : ∀ (s1 : σ) (hash : String),
      repo.IsNotCreated s (User.mk 0 userSchema.Username "" userSchema.IsAdmin) = (s1, true, none) →
      bc.GenerateFromPassword salt userSchema.Password 10 = Except.ok hash →
      CreateUser repo bc salt s userSchema
        = repo.Create s1 (User.mk 0 userSchema.Username hash userSchema.IsAdmin) := by
    intro s1 hash h hg
    simp only [CreateUser, h, hg]
    rfl
  have hfive : ∀ (s1 : σ) (hash : String),
      repo.IsNotCreated s (User.mk 0 userSchema.Username "" userSchema.IsAdmin) = (s1, true, none) →
      bc.GenerateFromPassword salt userSchema.Password 10 = Except.ok hash →
      CreateUser repo bc salt s userSchema
        = repo.Create s1 (User.mk 0 userSchema.Username hash userSchema.IsAdmin) ∧
      bc.CompareHashAndPassword hash userSchema.Password = none ∧
      ((repo.Create s1 (User.mk 0 userSchema.Username hash userSchema.IsAdmin)).2.1.Password = hash →
        (CreateUser repo bc salt s userSchema).2.1.Password = hash) := by
    intro s1 hash h hg
    refine ⟨hreach s1 hash h hg, hbc salt userSchema.Password hash hg, ?_⟩
    intro hkeep
    rw [hreach s1 hash h hg]
    exact hkeep
  refine ⟨?_, ?_, ?_, ?_, hfive, NewUserRepository_Create_keeps_password⟩
  all_goals
    rcases h : repo.IsNotCreated s (User.mk 0 userSchema.Username "" userSchema.IsAdmin)
      with ⟨s1, ok, e⟩
    cases e with
    | some e => simp [CreateUser, recording, h]
    | none =>
      cases ok with
      | false => simp [CreateUser, recording, h]
      | true =>
        cases hg : bc.GenerateFromPassword salt userSchema.Password 10 with
        | error e => simp [CreateUser, recording, h, hg]
        | ok hash =>
          have hv := hbc salt userSchema.Password hash hg
          first
            | (intro hno
               exact absurd (by simp [CreateUser, recording, h, hg]) (hno
                 (User.mk 0 userSchema.Username hash userSchema.IsAdmin)))
            | simp [CreateUser, recording, h, hg, hv]

/-- Claim C10, amended, on the empty table with the repository of the program:
the account handed to `Create` carries a hash that verifies, and the account
returned carries the hash `s1$secret`. -/
theorem CreateUser_password_is_hash_witness :
    (∀ u, Call.Create u ∈ (CreateUser (recording NewUserRepository) toyBcrypt "s1" (emptyDB, [])
        { Username := "alice", Password := "secret", IsAdmin := false }).1.2 →
      toyBcrypt.GenerateFromPassword "s1" "secret" 10 = Except.ok u.Password ∧
      toyBcrypt.CompareHashAndPassword u.Password "secret" = none) ∧
    (CreateUser NewUserRepository toyBcrypt "s1" emptyDB
        { Username := "alice", Password := "secret", IsAdmin := false }).2.1.Password
      = "s1$secret" :=
  have h := CreateUser_password_is_hash NewUserRepository toyBcrypt "s1" emptyDB
    { Username := "alice", Password := "secret", IsAdmin := false }
    (fun salt0 password hash hgen => toyBcrypt_verifies salt0 password hash 10 hgen)
  ⟨h.2.1, (h.2.2.2.2.1 emptyDB "s1$secret" (by decide) rfl).2.2 (by decide)⟩

/-! ## Change of password -/

/-- Claim C6 fails for an account with a username of two code points, which
`CreateUser` accepts: on the table that holds `ab`, `UpdatePaswword` with the
new valid password `secret2` succeeds and the new hash verifies against
`secret2`, but `validateCredentials` with `ab` and `secret2` ends in
`ErrInvalidCredentials`. -/
theorem UpdatePaswword_short_username_login_fails :
    (User.mk 1 "ab" "s1$secret" false) ∈ shortNameDB.rows ∧
    shortNameDB.WF ∧
    4 ≤ "secret2".length ∧
    toyBcrypt.CompareHashAndPassword "s1$secret" "secret2" ≠ none ∧
    UpdatePaswword NewUserRepository toyBcrypt "s2" shortNameDB 1 { Password := "secret2" }
      = (shortNameDB.withPassword 1 "s2$secret2", none) ∧
    toyBcrypt.CompareHashAndPassword "s2$secret2" "secret2" = none ∧
    validateCredentials NewUserRepository toyBcrypt (shortNameDB.withPassword 1 "s2$secret2")
        { Username := "ab", Pasword := "secret2" }
      = (shortNameDB.withPassword 1 "s2$secret2", User.zero, some Err.ErrInvalidCredentials) := by
  unfold DB.WF
  decide

/-- Claim C6, amended. For every account `a` of a well-formed table whose
username has at least 3 code points, and every new password of at least 4 code
points that does not verify against the stored hash of `a`, when the hasher
returns a hash that verifies against the new password, `UpdatePaswword`
succeeds and stores that hash; afterwards `validateCredentials` with the
username of `a` and the new password returns the account without error, and
with any password that does not verify against the new hash (the old one) it
ends in `ErrInvalidCredentials`. -/
theorem UpdatePaswword_then_login (bc : Bcrypt) (db : DB) (a : User)
    (salt newPwd oldPwd hash : String) (hwf : db.WF) (ha : a ∈ db.rows)
    (hname : 3 ≤ a.Username.length) (hlen : 4 ≤ newPwd.length)
    (hdiff : bc.CompareHashAndPassword a.Password newPwd ≠ none)
    (hgen : bc.GenerateFromPassword salt newPwd 10 = Except.ok hash)
    (hnew : bc.CompareHashAndPassword hash newPwd = none)
    (hold : bc.CompareHashAndPassword hash oldPwd ≠ none) :
    UpdatePaswword NewUserRepository bc salt db a.ID { Password := newPwd }
      = (db.withPassword a.ID hash, none) ∧
    validateCredentials NewUserRepository bc
        (UpdatePaswword NewUserRepository bc salt db a.ID { Password := newPwd }).1
        { Username := a.Username, Pasword := newPwd }
      = (db.withPassword a.ID hash, { a with Password := hash }, none) ∧
    (validateCredentials NewUserRepository bc
        (UpdatePaswword NewUserRepository bc salt db a.ID { Password := newPwd }).1
        { Username := a.Username, Pasword := oldPwd }).2.2
      = some Err.ErrInvalidCredentials := by
  have hid : a.ID ≠ 0 := by
    have := (hwf.1 a ha).1
    omega
  have hget := GetByID_mem db a { User.zero with ID := a.ID } hwf ha rfl
  have hupd := UpdatePassword_mem db { a with Password := hash } hid
  have hval : ¬ (newPwd = "" ∨ newPwd.length < 4) := by
    simp only [str_empty_iff]
    omega
  have h1 : UpdatePaswword NewUserRepository bc salt db a.ID { Password := newPwd }
      = (db.withPassword a.ID hash, none) := by
    cases hc : bc.CompareHashAndPassword a.Password newPwd with
    | none => exact absurd hc hdiff
    | some e =>
      simp only [UpdatePaswword, NewUserRepository, if_neg hval, hget, if_neg hid, hc, hgen, hupd]
  have hwf2 := withPassword_WF db a.ID hash hwf
  have hmem2 := withPassword_mem db a hash ha
  have hlook := GetByUsername_mem (db.withPassword a.ID hash) { a with Password := hash }
    { User.zero with Username := a.Username } hwf2 hmem2 rfl rfl
  refine ⟨h1, ?_, ?_⟩
  · rw [h1]
    obtain ⟨g1, g2⟩ := login_gate_passes { Username := a.Username, Pasword := newPwd } hname hlen
    simp only [validateCredentials, NewUserRepository, if_neg g1, if_neg g2, hlook, if_neg hid, hnew]
  · rw [h1]
    simp only [validateCredentials, NewUserRepository]
    split
    · rfl
    · split
      · rfl
      · simp only [hlook, if_neg hid]
        cases hc : bc.CompareHashAndPassword hash oldPwd with
        | none => exact absurd hc hold
        | some e => rfl

/-- Claim C6, amended, on the table that holds `alice`: the password changes
from `secret` to `secret2`. -/
theorem UpdatePaswword_then_login_witness :
    aliceDB.WF ∧ 3 ≤ "alice".length ∧ 4 ≤ "secret2".length ∧
    UpdatePaswword NewUserRepository toyBcrypt "s2" aliceDB 1 { Password := "secret2" }
      = (aliceDB.withPassword 1 "s2$secret2", none) ∧
    validateCredentials NewUserRepository toyBcrypt
        (UpdatePaswword NewUserRepository toyBcrypt "s2" aliceDB 1 { Password := "secret2" }).1
        { Username := "alice", Pasword := "secret2" }
      = (aliceDB.withPassword 1 "s2$secret2", User.mk 1 "alice" "s2$secret2" false, none) ∧
    (validateCredentials NewUserRepository toyBcrypt
        (UpdatePaswword NewUserRepository toyBcrypt "s2" aliceDB 1 { Password := "secret2" }).1
        { Username := "alice", Pasword := "secret" }).2.2
      = some Err.ErrInvalidCredentials :=
  ⟨aliceDB_WF, by decide, by decide,
    UpdatePaswword_then_login toyBcrypt aliceDB (User.mk 1 "alice" "s1$secret" false)
      "s2" "secret2" "secret" "s2$secret2" aliceDB_WF (by decide) (by decide) (by decide)
      (by decide) rfl (by decide) (by decide)⟩

/-- Claim C7 fails for a new password of fewer than 4 code points: on the
table that holds `alice` with the hash of `abc`, the password `abc` verifies
against the stored hash, but `UpdatePaswword` with `abc` ends in
`ErrInvalidPassword` before any call to the repository. -/
theorem UpdatePaswword_short_password_not_unchanged :
    (User.mk 1 "alice" "s1$abc" false) ∈ shortPasswordDB.rows ∧
    toyBcrypt.CompareHashAndPassword (User.mk 1 "alice" "s1$abc" false).Password "abc" = none ∧
    UpdatePaswword (recording NewUserRepository) toyBcrypt "s2" (shortPasswordDB, []) 1
        { Password := "abc" }
      = ((shortPasswordDB, []), some Err.ErrInvalidPassword) ∧
    Err.ErrInvalidPassword ≠ Err.ErrPasswordSame := by
  decide

/-- Claim C7, amended. For every account `a` of a well-formed table and every
new password of at least 4 code points that verifies against the stored hash
of `a`, `UpdatePaswword` ends in `ErrPasswordSame`, which differs from
`ErrInvalidPassword` and from `ErrRecordNotFound`; the only call made to the
repository is the lookup by identifier, so `UpdatePassword` is not called and
the table is left as it was. -/
theorem UpdatePaswword_same_password (bc : Bcrypt) (db : DB) (log : List Call) (a : User)
    (salt newPwd : String) (hwf : db.WF) (ha : a ∈ db.rows) (hlen : 4 ≤ newPwd.length)
    (hsame : bc.CompareHashAndPassword a.Password newPwd = none) :
    UpdatePaswword (recording NewUserRepository) bc salt (db, log) a.ID { Password := newPwd }
      = ((db, log ++ [Call.GetByID { User.zero with ID := a.ID }]), some Err.ErrPasswordSame) ∧
    Err.ErrPasswordSame ≠ Err.ErrInvalidPassword ∧
    Err.ErrPasswordSame ≠ Err.ErrRecordNotFound := by
  have hid : a.ID ≠ 0 := by
    have := (hwf.1 a ha).1
    omega
  have hget := GetByID_mem db a { User.zero with ID := a.ID } hwf ha rfl
  have hval : ¬ (newPwd = "" ∨ newPwd.length < 4) := by
    simp only [str_empty_iff]
    omega
  refine ⟨?_, by decide, by decide⟩
  simp only [UpdatePaswword, recording, NewUserRepository, if_neg hval, hget, if_neg hid, hsame]

/-- Claim C7, amended, on the table that holds `alice`: the password `secret`
is offered as the new one. -/
theorem UpdatePaswword_same_password_witness :
    aliceDB.WF ∧ 4 ≤ "secret".length ∧
    UpdatePaswword (recording NewUserRepository) toyBcrypt "s2" (aliceDB, []) 1
        { Password := "secret" }
      = ((aliceDB, [Call.GetByID { User.zero with ID := 1 }]), some Err.ErrPasswordSame) :=
  ⟨aliceDB_WF, by decide,
    (UpdatePaswword_same_password toyBcrypt aliceDB [] (User.mk 1 "alice" "s1$secret" false)
      "s2" "secret" aliceDB_WF (by decide) (by decide) (by decide)).1⟩

end WelshAcademy
